import Mathlib

/-!
Verification of the UIDAI data-hackathon repository's loading and
normalization pipeline, as implemented in `aadhaar_dashboard.py`
(`load_data_recursive`), `temo.py` (`clean_df`, `load_all_data`) and
`uidai_analysis_code.py` (`load_files`, `load_and_process_data`,
`q3_urban_rural_divide`, `q4_load_volatility`).

Strings are modelled as lists of Unicode code points (`List Nat`); all the
string data handled by the pipeline is ASCII, for which the Python
`str.strip`, `str.title` and `str.isalpha` behaviours coincide with the
ASCII-only models below.
-/

/-- Code points of a Lean string literal, used to write the Python string
constants of the source. -/
def pyStr (s : String) : List Nat := s.toList.map Char.toNat

/-- ASCII whitespace test, modelling the characters removed by Python
`str.strip()` on ASCII data: space, tab, LF, VT, FF, CR. -/
def isSpaceN (c : Nat) : Bool :=
  decide (c = 32 ∨ c = 9 ∨ c = 10 ∨ c = 11 ∨ c = 12 ∨ c = 13)

/-- ASCII letter test, modelling which characters Python treats as cased
letters on ASCII data. -/
def isAlphaN (c : Nat) : Bool :=
  decide ((65 ≤ c ∧ c ≤ 90) ∨ (97 ≤ c ∧ c ≤ 122))

/-- ASCII upper-casing of one code point. -/
def toUpperN (c : Nat) : Nat := if 97 ≤ c ∧ c ≤ 122 then c - 32 else c

/-- ASCII lower-casing of one code point. -/
def toLowerN (c : Nat) : Nat := if 65 ≤ c ∧ c ≤ 90 then c + 32 else c

/-- One step of Python `str.title()`: a letter is upper-cased when the
previous character was not a letter and lower-cased otherwise; any other
character passes through. -/
def pyTitleChar (b : Bool) (c : Nat) : Nat :=
  if isAlphaN c then (if b then toLowerN c else toUpperN c) else c

/-- The stateful traversal behind Python `str.title()`; the flag records
whether the previous character was a letter. -/
def pyTitleAux (b : Bool) : List Nat → List Nat
  | [] => []
  | c :: cs => pyTitleChar b c :: pyTitleAux (isAlphaN c) cs

/-- Python `str.title()` on ASCII data, as applied by the pandas accessor
`.str.title()` in the cleaning blocks of all three scripts. -/
def pyTitle (s : List Nat) : List Nat := pyTitleAux false s

/-- Removal of leading whitespace. -/
def lstripN (s : List Nat) : List Nat := s.dropWhile isSpaceN

/-- Removal of trailing whitespace. -/
def rstripN (s : List Nat) : List Nat := (s.reverse.dropWhile isSpaceN).reverse

/-- Python `str.strip()` on ASCII data, as applied by `.str.strip()` in the
cleaning blocks. -/
def pyStrip (s : List Nat) : List Nat := rstripN (lstripN s)

/-- First-match association lookup, modelling the exact whole-string dict
replacement performed by `pandas.Series.replace` with a string dict. -/
def lookupTab : List (List Nat × List Nat) → List Nat → Option (List Nat)
  | [], _ => none
  | p :: rest, s => if s = p.1 then some p.2 else lookupTab rest s

/-- The `state_map` dict of `load_data_recursive` in `aadhaar_dashboard.py`
(also used verbatim in `load_and_process_data` of `uidai_analysis_code.py`):
alias state names and their documented canonical replacements. -/
def state_map : List (List Nat × List Nat) :=
  [ (pyStr (r"Westbengal"), pyStr (r"West Bengal")),
    (pyStr (r"West  Bengal"), pyStr (r"West Bengal")),
    (pyStr (r"Uttaranchal"), pyStr (r"Uttarakhand")),
    (pyStr (r"Orissa"), pyStr (r"Odisha")),
    (pyStr (r"The Dadra And Nagar Haveli And Daman And Diu"),
      pyStr (r"Dadra and Nagar Haveli")) ]

/-- `Series.replace(state_map)` on one cell: replace the cell exactly when it
equals an alias key, otherwise leave it unchanged. -/
def replaceState (s : List Nat) : List Nat :=
  match lookupTab state_map s with
  | some v => v
  | none => s

/-- The state-name normalizer of the cleaning blocks:
`df['state'].replace(state_map).str.strip().str.title()` applied to one
cell. -/
def normalizeState (s : List Nat) : List Nat :=
  pyTitle (pyStrip (replaceState s))

example : normalizeState (pyStr (r"Westbengal")) = pyStr (r"West Bengal") := by decide
example : normalizeState (pyStr (r"Orissa")) = pyStr (r"Odisha")  := by decide
example : normalizeState (pyStr (r"Dadra and Nagar Haveli"))
    = pyStr (r"Dadra And Nagar Haveli") := by decide
example : normalizeState (normalizeState (pyStr (r"orissa")))
    ≠ normalizeState (pyStr (r"orissa")) := by decide

/-- A raw CSV row before cleaning: the textual `date` cell, the `state`
cell, and the numeric cells (age-banded counters), each possibly missing
(`none` models a NaN produced by an empty cell). -/
structure RawRow where
  date : List Nat
  state : List Nat
  nums : List (Option Int)
deriving DecidableEq

/-- A loaded row: the date after `pd.to_datetime(..., errors='coerce')`
(`none` models NaT), the state cell and the numeric cells. -/
structure Row where
  date : Option (Nat × Nat × Nat)
  state : List Nat
  nums : List (Option Int)
deriving DecidableEq

/-- Split a string on a separator code point, modelling the field structure
used by the `%d-%m-%Y` parse. -/
def splitOnN (sep : Nat) : List Nat → List (List Nat)
  | [] => [[]]
  | c :: cs =>
    let r := splitOnN sep cs
    if c = sep then [] :: r
    else
      match r with
      | [] => [[c]]
      | g :: gs => (c :: g) :: gs

/-- Nonempty all-digit field test. -/
def allDigits (l : List Nat) : Bool :=
  decide (l ≠ [] ∧ ∀ c ∈ l, 48 ≤ c ∧ c ≤ 57)

/-- Numeric value of a digit field. -/
def digitsToNat (l : List Nat) : Nat := l.foldl (fun a c => a * 10 + (c - 48)) 0

/-- Gregorian leap-year test. -/
def isLeap (y : Nat) : Bool := decide (y % 4 = 0 ∧ (y % 100 ≠ 0 ∨ y % 400 = 0))

/-- Days in a month of a given year. -/
def daysInMonth (m y : Nat) : Nat :=
  if m = 2 then (if isLeap y then 29 else 28)
  else if m = 4 ∨ m = 6 ∨ m = 9 ∨ m = 11 then 30
  else 31

/-- Model of `pd.to_datetime(cell, format='%d-%m-%Y', errors='coerce')` on
one cell: the cell must be three dash-separated digit fields (day and month
one or two digits, year four digits) denoting a valid calendar date;
anything else is coerced to the missing marker `none` (NaT). -/
def parseDMY (s : List Nat) : Option (Nat × Nat × Nat) :=
  match splitOnN 45 s with
  | [d, m, y] =>
    if allDigits d ∧ allDigits m ∧ allDigits y
        ∧ d.length ≤ 2 ∧ m.length ≤ 2 ∧ y.length = 4 then
      let dn := digitsToNat d
      let mn := digitsToNat m
      let yn := digitsToNat y
      if 1 ≤ mn ∧ mn ≤ 12 ∧ 1 ≤ dn ∧ dn ≤ daysInMonth mn yn then
        some (dn, mn, yn)
      else none
    else none
  | _ => none

example : parseDMY (pyStr (r"01-03-2025")) = some (1, 3, 2025) := by decide
example : parseDMY (pyStr (r"31-02-2025")) = none := by decide
example : parseDMY (pyStr (r"hello")) = none := by decide

/-- Loading one parsed CSV row: the date cell goes through the coercing
date parse; every other cell is carried over unchanged. -/
def loadRow (r : RawRow) : Row :=
  { date := parseDMY r.date, state := r.state, nums := r.nums }

/-- Loading the rows of one successfully read file:
`df = pd.read_csv(p)` followed by the coercing date standardization. -/
def readTable (rows : List RawRow) : List Row := rows.map loadRow

/-- The per-category loading loop of `load_data_recursive` (and of
`load_files` in `uidai_analysis_code.py`): each file is `some rows` when
`pd.read_csv` succeeds and `none` when it raises; the loop appends the
loaded table of each successful file to `dfs` and silently skips failures,
and the result is `pd.concat(dfs, ignore_index=True)`, the empty table when
`dfs` stays empty. -/
def loadCategory (files : List (Option (List RawRow))) : List Row :=
  let dfs := files.foldl
    (fun acc f =>
      match f with
      | some rows => acc ++ [readTable rows]
      | none => acc)
    ([] : List (List Row))
  dfs.flatten

/-- Restatement of the loader from the spec's words: the concatenation of
exactly the successfully read files, in file order. Used to compare with
`loadCategory`, which is translated from the loop in the source. -/
def loadCategorySpec (files : List (Option (List RawRow))) : List Row :=
  ((files.filterMap id).map readTable).flatten

/-- The three keyword categories of `load_data_recursive`. -/
inductive Cat
  | enrol
  | bio
  | demo
deriving DecidableEq

/-- Keyword matched for the enrolment category. -/
def kwEnrol : List Nat := pyStr (r"api_data_aadhar_enrolment")

/-- Keyword matched for the biometric category. -/
def kwBio : List Nat := pyStr (r"api_data_aadhar_biometric")

/-- Keyword matched for the demographic category. -/
def kwDemo : List Nat := pyStr (r"api_data_aadhar_demographic")

/-- The tabular-text extension checked by `file.endswith(".csv")`. -/
def extCsv : List Nat := pyStr (r".csv")

/-- One file seen by the `os.walk` scan: its full path, its base name (the
string the keyword tests run on), and its content (`none` when reading it
raises). -/
structure FileEntry where
  path : List Nat
  name : List Nat
  content : Option (List RawRow)
deriving DecidableEq

/-- The classification of one file name in `load_data_recursive`: names not
ending in `.csv` are skipped, then the first keyword test that fires in the
if/elif chain (enrolment, then biometric, then demographic) decides the
category; a csv name matching no keyword is skipped. -/
def classify (name : List Nat) : Option Cat :=
  if ¬ decide (extCsv <:+ name) then none
  else if decide (kwEnrol <:+: name) then some Cat.enrol
  else if decide (kwBio <:+: name) then some Cat.bio
  else if decide (kwDemo <:+: name) then some Cat.demo
  else none

/-- The scan phase of `load_data_recursive`: the files of the walk whose
name classifies into the given category, in walk order (their paths are
appended to `data_store[key]`). -/
def discover (walk : List FileEntry) (c : Cat) : List FileEntry :=
  walk.filter (fun f => decide (classify f.name = some c))

/-- The full load of one category in `load_data_recursive`: scan, then the
skip-on-error loading loop over the matched files. -/
def loadAll (walk : List FileEntry) (c : Cat) : List Row :=
  loadCategory ((discover walk c).map FileEntry.content)

/-- `fillna(0)` on one numeric cell. -/
def fillCell (c : Option Int) : Option Int := some (c.getD 0)

/-- The cleaning block applied to one row:
`df['state'].replace(state_map).str.strip().str.title()` on the state cell
and `df[num_cols].fillna(0)` on the numeric cells. -/
def normalizeRow (r : Row) : Row :=
  { r with state := normalizeState r.state, nums := r.nums.map fillCell }

/-- The cleaning block of `load_data_recursive` applied to a loaded
table. -/
def normalizeTable (t : List Row) : List Row := t.map normalizeRow

/-- Group-by-sum on keyed count rows: the total of the values whose key
equals `k`, as produced by `groupby(...).sum()`; a key absent from the rows
totals to 0, matching the `fillna(0)` applied after the join. -/
def sumForKey (k : List Nat) (rows : List (List Nat × Int)) : Int :=
  ((rows.filter (fun p => decide (p.1 = k))).map Prod.snd).sum

/-- The region keys of the joined ratio frame: every key occurring on the
demographic or the biometric side. -/
def ratioKeys (demoRows bioRows : List (List Nat × Int)) : List (List Nat) :=
  ((demoRows.map Prod.fst) ++ (bioRows.map Prod.fst)).dedup

/-- The ratio frame of `aadhaar_dashboard.py`
(`ratio_df['Ratio'] = ratio_df['Demo'] / (ratio_df['Bio'] + 1)`) and of
`q3_urban_rural_divide`: for each region key, the pair of the key and the
digital ratio computed from the grouped sums. -/
def ratioTable (demoRows bioRows : List (List Nat × Int)) :
    List (List Nat × ℚ) :=
  (ratioKeys demoRows bioRows).map
    (fun k => (k, (sumForKey k demoRows : ℚ) / ((sumForKey k bioRows : ℚ) + 1)))

/-- The distinct dates of the demographic frame, in first-occurrence order;
rows whose date is the missing marker are dropped, as `groupby('date')`
drops NaT keys. -/
def dailyKeys (rows : List (Option (Nat × Nat × Nat) × Int)) :
    List (Nat × Nat × Nat) :=
  (rows.filterMap Prod.fst).dedup

/-- The total volume of one day:
`df_demo.groupby('date')[cols].sum().sum(axis=1)` at that date, with each
row's value the sum of its counter columns. -/
def dayVolume (d : Nat × Nat × Nat)
    (rows : List (Option (Nat × Nat × Nat) × Int)) : Int :=
  ((rows.filter (fun p => decide (p.1 = some d))).map Prod.snd).sum

/-- The daily-volume series handed to the mean and standard deviation in
`q4_load_volatility`. -/
def dailySeries (rows : List (Option (Nat × Nat × Nat) × Int)) : List Int :=
  (dailyKeys rows).map (fun d => dayVolume d rows)

/-- `Series.mean()` of an integer series, as a rational. -/
def meanQ (l : List Int) : ℚ := (l.sum : ℚ) / (l.length : ℚ)

/-- `Series.var()` of an integer series: the sample variance with the
pandas default `ddof=1`, the sum of squared deviations from the mean
divided by `n - 1` (0 when `n ≤ 1`, where pandas yields NaN; both make the
spike comparison below reject every day, see `q4_spikes`). -/
def varQ (l : List Int) : ℚ :=
  ((l.map (fun x => ((x : ℚ) - meanQ l) ^ 2)).sum) / ((l.length : ℚ) - 1)

/-- The spike filter of `q4_load_volatility`:
`spikes = daily_load[daily_load > limit]` with
`limit = daily_load.mean() + 2 * daily_load.std()`. Since `std` is the
square root of `var`, the comparison `mean + 2*std < v` holds exactly when
`0 < v - mean` and `4*var < (v - mean)^2`, which is the decidable form used
here; the equivalence with the square-root form is proved in the theorem
about this definition. -/
def q4_spikes (rows : List (Option (Nat × Nat × Nat) × Int)) :
    List (Nat × Nat × Nat) :=
  (dailyKeys rows).filter
    (fun d =>
      decide (0 < (dayVolume d rows : ℚ) - meanQ (dailySeries rows)
        ∧ 4 * varQ (dailySeries rows)
          < ((dayVolume d rows : ℚ) - meanQ (dailySeries rows)) ^ 2))

/-- A raw row whose date cell `31-02-2025` matches no valid calendar date,
used to exercise the coercing date parse. -/
def exRawRow3 : RawRow :=
  { date := pyStr (r"31-02-2025"), state := pyStr (r"Bihar"), nums := [some 4] }

/-- A walk containing a single file that matches no category. -/
def exWalk4 : List FileEntry :=
  [ { path := pyStr (r"data/readme.txt"), name := pyStr (r"readme.txt"),
      content := some [] } ]

/-- A loaded row with a missing numeric cell, used to exercise the
`fillna(0)` pass. -/
def exRow7 : Row := { date := none, state := pyStr (r"Bihar"), nums := [none, some 3] }

/-- Demographic count rows for one district. -/
def exDemoRows8 : List (List Nat × Int) := [(pyStr (r"Patna"), 10)]

/-- Biometric count rows with no district at all, so the grouped biometric
count of every key is 0. -/
def exBioRows8 : List (List Nat × Int) := []

/-- A walk with one csv file whose name contains both the enrolment and the
biometric keyword, and one non-csv file containing the demographic
keyword. -/
def exWalk10 : List FileEntry :=
  [ { path := pyStr (r"d/api_data_aadhar_enrolment_api_data_aadhar_biometric_1.csv"),
      name := pyStr (r"api_data_aadhar_enrolment_api_data_aadhar_biometric_1.csv"),
      content := some [] },
    { path := pyStr (r"d/api_data_aadhar_demographic_1.txt"),
      name := pyStr (r"api_data_aadhar_demographic_1.txt"),
      content := some [] } ]

/-- A loaded row whose state cell `orissa` title-cases into the alias key
`Orissa`, so a second cleaning pass maps it further to `Odisha`. -/
def exRowC2 : Row := { date := none, state := pyStr (r"orissa"), nums := [none] }

/-- A loaded row whose normalized state `West Bengal` is no alias key. -/
def exRowC2b : Row := { date := none, state := pyStr (r"Westbengal"), nums := [some 1] }

/-- Demographic keyed rows with a missing and a valid date, used to
exercise the daily-volume spike filter. -/
def exDemoDaily9 : List (Option (Nat × Nat × Nat) × Int) :=
  [ (some (1, 3, 2025), 0), (some (2, 3, 2025), 3), (some (3, 3, 2025), 6) ]

lemma loadCategory_foldl (files : List (Option (List RawRow)))
    (acc : List (List Row)) :
    files.foldl
      (fun acc f =>
        match f with
        | some rows => acc ++ [readTable rows]
        | none => acc)
      acc
    = acc ++ (files.filterMap id).map readTable := by
  induction files generalizing acc with
  | nil => simp
  | cons f fs ih =>
    cases f with
    | none => simpa using ih acc
    | some rows =>
      simp only [List.foldl_cons, List.filterMap_cons_some, List.map_cons, id]
      rw [ih (acc ++ [readTable rows])]
      simp

lemma loadCategory_eq (files : List (Option (List RawRow))) :
    loadCategory files = ((files.filterMap id).map readTable).flatten := by
  unfold loadCategory
  rw [loadCategory_foldl]
  simp

/-- C3: a row whose date cell does not parse under the fixed `%d-%m-%Y`
pattern is kept by the loader with the missing marker as its date, its
other cells unchanged; no row is dropped. -/
theorem C3_unparseable_date_kept (rows : List RawRow) :
    (readTable rows).length = rows.length
    ∧ ∀ r ∈ rows, parseDMY r.date = none →
        loadRow r ∈ readTable rows ∧ (loadRow r).date = none
        ∧ (loadRow r).state = r.state ∧ (loadRow r).nums = r.nums := by
  constructor
  · simp [readTable]
  · intro r hr hparse
    refine ⟨List.mem_map_of_mem loadRow hr, ?_, rfl, rfl⟩
    simp [loadRow, hparse]

theorem C3_witness :
    parseDMY exRawRow3.date = none
    ∧ (loadRow exRawRow3 ∈ readTable [exRawRow3]
        ∧ (loadRow exRawRow3).date = none
        ∧ (loadRow exRawRow3).state = exRawRow3.state
        ∧ (loadRow exRawRow3).nums = exRawRow3.nums) :=
  ⟨by decide,
    (C3_unparseable_date_kept [exRawRow3]).2 exRawRow3 (by decide) (by decide)⟩

/-- C4: a category with zero matching files, or with no file that loads
successfully, yields the empty table. -/
theorem C4_empty_category (walk : List FileEntry) (c : Cat) :
    (discover walk c = [] → loadAll walk c = [])
    ∧ ((∀ f ∈ discover walk c, f.content = none) → loadAll walk c = []) := by
  constructor
  · intro h
    simp [loadAll, h, loadCategory_eq]
  · intro h
    rw [loadAll, loadCategory_eq]
    have : ((discover walk c).map FileEntry.content).filterMap id = [] := by
      rw [List.filterMap_eq_nil_iff]
      intro a ha
      obtain ⟨f, hf, rfl⟩ := List.mem_map.mp ha
      exact h f hf
    simp [this]

theorem C4_witness :
    discover exWalk4 Cat.enrol = [] ∧ loadAll exWalk4 Cat.enrol = [] :=
  ⟨by decide, (C4_empty_category exWalk4 Cat.enrol).1 (by decide)⟩

/-- C5: the skip-on-error loading loop returns exactly the concatenation of
the successfully read files, in file order, and surfaces no error. -/
theorem C5_skip_failed_files (files : List (Option (List RawRow))) :
    loadCategory files = loadCategorySpec files :=
  loadCategory_eq files

/-- C6: with every file read successfully, the loaded concatenation is the
file-then-row concatenation of the per-file tables, and its row count is
the sum of the input row counts — no deduplication. -/
theorem C6_concat_counts (tables : List (List RawRow)) :
    loadCategory (tables.map some) = (tables.map readTable).flatten
    ∧ (loadCategory (tables.map some)).length = (tables.map List.length).sum := by
  have h : loadCategory (tables.map some) = (tables.map readTable).flatten := by
    rw [loadCategory_eq]
    simp
  refine ⟨h, ?_⟩
  rw [h, List.length_flatten]
  simp only [List.map_map]
  congr 1
  apply List.map_congr_left
  intro t ht
  simp [readTable]

/-- C7: after the cleaning block, no numeric cell of any row is missing:
every numeric cell of a normalized table carries a value. -/
theorem C7_no_missing_numeric (t : List Row) (r : Row)
    (hr : r ∈ normalizeTable t) : ∀ c ∈ r.nums, c.isSome = true := by
  intro c hc
  obtain ⟨r', _, rfl⟩ := List.mem_map.mp hr
  obtain ⟨c', _, rfl⟩ := List.mem_map.mp hc
  rfl

theorem C7_witness :
    normalizeRow exRow7 ∈ normalizeTable [exRow7]
    ∧ ∀ c ∈ (normalizeRow exRow7).nums, c.isSome = true :=
  ⟨by decide, C7_no_missing_numeric [exRow7] (normalizeRow exRow7) (by decide)⟩

/-- C8: every row of the ratio frame carries the ratio of the grouped
demographic count to the grouped biometric count plus one; when the
biometric count is 0 the ratio is exactly the demographic count, and for a
nonnegative biometric count the denominator is nonzero. -/
theorem C8_digital_ratio (demoRows bioRows : List (List Nat × Int))
    (k : List Nat) (r : ℚ) (hmem : (k, r) ∈ ratioTable demoRows bioRows) :
    r = (sumForKey k demoRows : ℚ) / ((sumForKey k bioRows : ℚ) + 1)
    ∧ (sumForKey k bioRows = 0 → r = (sumForKey k demoRows : ℚ))
    ∧ (0 ≤ sumForKey k bioRows → ((sumForKey k bioRows : ℚ) + 1) ≠ 0) := by
  obtain ⟨k', _, heq⟩ := List.mem_map.mp hmem
  injection heq with h1 h2
  subst h1
  subst h2
  refine ⟨rfl, ?_, ?_⟩
  · intro hb
    rw [hb]
    simp
  · intro hb
    have h0 : (0 : ℚ) ≤ (sumForKey k' bioRows : ℚ) := by exact_mod_cast hb
    positivity

theorem C8_witness :
    ((pyStr (r"Patna"), (10 : ℚ)) ∈ ratioTable exDemoRows8 exBioRows8)
    ∧ ((10 : ℚ)
        = (sumForKey (pyStr (r"Patna")) exDemoRows8 : ℚ)
          / ((sumForKey (pyStr (r"Patna")) exBioRows8 : ℚ) + 1)
      ∧ (sumForKey (pyStr (r"Patna")) exBioRows8 = 0 →
          (10 : ℚ) = (sumForKey (pyStr (r"Patna")) exDemoRows8 : ℚ))
      ∧ (0 ≤ sumForKey (pyStr (r"Patna")) exBioRows8 →
          ((sumForKey (pyStr (r"Patna")) exBioRows8 : ℚ) + 1) ≠ 0)) := by
  have hmem : (pyStr (r"Patna"), (10 : ℚ)) ∈ ratioTable exDemoRows8 exBioRows8 := by
    simp [ratioTable, ratioKeys, sumForKey, exDemoRows8, exBioRows8]
  exact ⟨hmem,
    C8_digital_ratio exDemoRows8 exBioRows8 (pyStr (r"Patna")) 10 hmem⟩

/-- C10: under distinct walk paths the three category path lists are
pairwise disjoint; a csv name containing several keywords is classified by
the precedence enrolment, then biometric, then demographic; a name not
ending in the tabular-text extension is classified to no category. -/
theorem C10_discovery_partition (walk : List FileEntry)
    (hpaths : (walk.map FileEntry.path).Nodup) :
    (∀ c c', c ≠ c' → ∀ p, p ∈ (discover walk c).map FileEntry.path →
        p ∉ (discover walk c').map FileEntry.path)
    ∧ (∀ name, extCsv <:+ name → kwEnrol <:+: name →
        classify name = some Cat.enrol)
    ∧ (∀ name, extCsv <:+ name → kwBio <:+: name → ¬ (kwEnrol <:+: name) →
        classify name = some Cat.bio)
    ∧ (∀ name, extCsv <:+ name → kwDemo <:+: name → ¬ (kwEnrol <:+: name) →
        ¬ (kwBio <:+: name) → classify name = some Cat.demo)
    ∧ (∀ name, ¬ (extCsv <:+ name) → classify name = none) := by
  refine ⟨?_, ?_, ?_, ?_, ?_⟩
  · intro c c' hne p hp hp'
    obtain ⟨f, hf, rfl⟩ := List.mem_map.mp hp
    obtain ⟨f', hf', hpath⟩ := List.mem_map.mp hp'
    have h1 := List.mem_filter.mp hf
    have h2 := List.mem_filter.mp hf'
    have hff : f' = f :=
      List.inj_on_of_nodup_map hpaths h2.1 h1.1 hpath
    have e1 : classify f.name = some c := of_decide_eq_true h1.2
    have e2 : classify f'.name = some c' := of_decide_eq_true h2.2
    rw [hff] at e2
    exact hne (Option.some.inj (e1.symm.trans e2))
  · intro name hcsv henrol
    simp [classify, hcsv, henrol]
  · intro name hcsv hbio henrol
    simp [classify, hcsv, henrol, hbio]
  · intro name hcsv hdemo henrol hbio
    simp [classify, hcsv, henrol, hbio, hdemo]
  · intro name hcsv
    simp [classify, hcsv]

theorem C10_witness :
    ((exWalk10.map FileEntry.path).Nodup)
    ∧ classify (pyStr (r"api_data_aadhar_enrolment_api_data_aadhar_biometric_1.csv"))
        = some Cat.enrol
    ∧ classify (pyStr (r"api_data_aadhar_demographic_1.txt")) = none := by
  have h := C10_discovery_partition exWalk10 (by decide)
  refine ⟨by decide, ?_, ?_⟩
  · exact h.2.1 _ (by decide) (by decide)
  · exact h.2.2.2.2 _ (by decide)

lemma two_sqrt_lt_iff (q x : ℚ) :
    2 * Real.sqrt (q : ℝ) < ((x : ℚ) : ℝ) ↔ (0 < x ∧ 4 * q < x ^ 2) := by
  constructor
  · intro hlt
    have hx : (0 : ℝ) < (x : ℝ) := lt_of_le_of_lt (by positivity) hlt
    constructor
    · exact_mod_cast hx
    · have h2 : Real.sqrt ((4 : ℝ) * q) < (x : ℝ) := by
        rw [show ((4 : ℝ) * q) = 2 ^ 2 * q by ring,
          Real.sqrt_mul (by positivity), Real.sqrt_sq (by norm_num)]
        exact hlt
      have := (Real.sqrt_lt' hx).mp h2
      exact_mod_cast this
  · rintro ⟨hx, hsq⟩
    have hx' : (0 : ℝ) < (x : ℝ) := by exact_mod_cast hx
    have h2 : Real.sqrt ((4 : ℝ) * q) < (x : ℝ) := by
      apply (Real.sqrt_lt' hx').mpr
      exact_mod_cast hsq
    rw [show ((4 : ℝ) * q) = 2 ^ 2 * q by ring,
      Real.sqrt_mul (by positivity), Real.sqrt_sq (by norm_num)] at h2
    exact h2

/-- C9: a day of the daily-volume series is kept by the spike filter
exactly when its volume strictly exceeds the series mean plus two standard
deviations, the standard deviation being the square root of the sample
variance. -/
theorem C9_spike_iff (rows : List (Option (Nat × Nat × Nat) × Int))
    (d : Nat × Nat × Nat) :
    d ∈ q4_spikes rows ↔
      d ∈ dailyKeys rows
      ∧ ((meanQ (dailySeries rows) : ℚ) : ℝ)
          + 2 * Real.sqrt ((varQ (dailySeries rows) : ℚ) : ℝ)
        < ((dayVolume d rows : ℤ) : ℝ) := by
  rw [q4_spikes, List.mem_filter]
  apply and_congr_right
  intro _
  rw [decide_eq_true_eq]
  rw [two_sqrt_lt_iff (varQ (dailySeries rows))
    ((dayVolume d rows : ℚ) - meanQ (dailySeries rows)) |>.symm]
  constructor
  · intro h
    push_cast at h ⊢
    linarith
  · intro h
    push_cast at h ⊢
    linarith

lemma isSpaceN_pyTitleChar (b : Bool) (c : Nat) :
    isSpaceN (pyTitleChar b c) = isSpaceN c := by
  unfold pyTitleChar toLowerN toUpperN isAlphaN isSpaceN
  split_ifs with h h2 h3 h4 <;> simp only [decide_eq_decide] <;> omega

lemma isAlphaN_pyTitleChar (b : Bool) (c : Nat) :
    isAlphaN (pyTitleChar b c) = isAlphaN c := by
  unfold pyTitleChar toLowerN toUpperN isAlphaN
  split_ifs with h h2 h3 h4 <;> simp only [decide_eq_decide] <;> omega

lemma pyTitleChar_pyTitleChar (b : Bool) (c : Nat) :
    pyTitleChar b (pyTitleChar b c) = pyTitleChar b c := by
  unfold pyTitleChar toLowerN toUpperN isAlphaN
  split_ifs <;> simp_all <;> omega

lemma not_alpha_of_space (c : Nat) (h : isSpaceN c = true) :
    isAlphaN c = false := by
  unfold isSpaceN at h
  unfold isAlphaN
  simp only [decide_eq_true_eq] at h
  simp only [decide_eq_false_iff_not]
  omega

lemma pyTitleChar_of_space (b : Bool) (c : Nat) (h : isSpaceN c = true) :
    pyTitleChar b c = c := by
  unfold pyTitleChar
  rw [not_alpha_of_space c h]
  simp

lemma pyTitleAux_idem (s : List Nat) (b : Bool) :
    pyTitleAux b (pyTitleAux b s) = pyTitleAux b s := by
  induction s generalizing b with
  | nil => rfl
  | cons c cs ih =>
    simp only [pyTitleAux, isAlphaN_pyTitleChar, pyTitleChar_pyTitleChar]
    rw [ih (isAlphaN c)]

/-- The letter flag after a title traversal of a list. -/
def flagEnd (b : Bool) (x : List Nat) : Bool :=
  x.foldl (fun _ c => isAlphaN c) b

lemma flagEnd_cons (b : Bool) (c : Nat) (cs : List Nat) :
    flagEnd b (c :: cs) = flagEnd (isAlphaN c) cs := rfl

lemma pyTitleAux_append (x y : List Nat) (b : Bool) :
    pyTitleAux b (x ++ y) = pyTitleAux b x ++ pyTitleAux (flagEnd b x) y := by
  induction x generalizing b with
  | nil => simp [pyTitleAux, flagEnd]
  | cons c cs ih =>
    simp only [List.cons_append, pyTitleAux, flagEnd_cons]
    rw [show cs.append y = cs ++ y from rfl, ih (isAlphaN c)]

lemma pyTitleAux_of_all_space (y : List Nat) (b : Bool)
    (h : ∀ c ∈ y, isSpaceN c = true) : pyTitleAux b y = y := by
  induction y generalizing b with
  | nil => rfl
  | cons c cs ih =>
    simp only [pyTitleAux]
    rw [pyTitleChar_of_space b c (h c (by simp)), ih (isAlphaN c) (fun d hd => h d (by simp [hd]))]

lemma map_isSpaceN_pyTitleAux (s : List Nat) (b : Bool) :
    (pyTitleAux b s).map isSpaceN = s.map isSpaceN := by
  induction s generalizing b with
  | nil => rfl
  | cons c cs ih =>
    simp only [pyTitleAux, List.map_cons, isSpaceN_pyTitleChar]
    rw [ih (isAlphaN c)]

lemma lstripN_pyTitleAux (s : List Nat) :
    lstripN (pyTitleAux false s) = pyTitleAux false (lstripN s) := by
  induction s with
  | nil => rfl
  | cons c cs ih =>
    by_cases hsp : isSpaceN c = true
    · simp only [pyTitleAux, lstripN, List.dropWhile_cons,
        pyTitleChar_of_space false c hsp, hsp, not_alpha_of_space c hsp]
      simpa [lstripN] using ih
    · have hsp' : isSpaceN c = false := by
        cases h : isSpaceN c
        · rfl
        · exact absurd h hsp
      simp only [pyTitleAux, lstripN, List.dropWhile_cons, isSpaceN_pyTitleChar, hsp']
      simp

lemma dropWhile_append_all {α : Type} (p : α → Bool) (a b : List α)
    (h : ∀ c ∈ a, p c = true) :
    (a ++ b).dropWhile p = b.dropWhile p := by
  induction a with
  | nil => rfl
  | cons c cs ih =>
    simp only [List.cons_append, List.dropWhile_cons, h c (by simp)]
    exact ih (fun d hd => h d (by simp [hd]))

lemma head_dropWhile_false {α : Type} (p : α → Bool) (l : List α) (c : α)
    (h : (l.dropWhile p).head? = some c) : p c = false := by
  induction l with
  | nil => simp at h
  | cons a as ih =>
    rw [List.dropWhile_cons] at h
    by_cases hp : p a = true
    · rw [if_pos hp] at h
      exact ih h
    · rw [if_neg hp] at h
      simp only [List.head?_cons, Option.some.injEq] at h
      rw [← h]
      cases hpa : p a
      · rfl
      · exact absurd hpa hp

lemma rstripN_decomp (u : List Nat) :
    ∃ tr, u = rstripN u ++ tr ∧ ∀ c ∈ tr, isSpaceN c = true := by
  refine ⟨(u.reverse.takeWhile isSpaceN).reverse, ?_, ?_⟩
  · rw [rstripN]
    rw [← List.reverse_append, List.takeWhile_append_dropWhile, List.reverse_reverse]
  · intro c hc
    rw [List.mem_reverse] at hc
    exact List.mem_takeWhile_imp hc

lemma rstripN_append_spaces (X tr : List Nat)
    (h : ∀ c ∈ tr, isSpaceN c = true) : rstripN (X ++ tr) = rstripN X := by
  rw [rstripN, rstripN, List.reverse_append,
    dropWhile_append_all isSpaceN tr.reverse X.reverse
      (fun c hc => h c (List.mem_reverse.mp hc))]

lemma rstripN_eq_self (X : List Nat)
    (h : ∀ c, X.getLast? = some c → isSpaceN c = false) : rstripN X = X := by
  rw [rstripN]
  cases hx : X.reverse with
  | nil =>
    have : X = [] := by simpa using congrArg List.reverse hx
    simp [this]
  | cons c cs =>
    have hc : X.getLast? = some c := by
      rw [← List.head?_reverse, hx, List.head?_cons]
    rw [List.dropWhile_cons, h c hc]
    rw [if_neg (by simp)]
    rw [← hx, List.reverse_reverse]

lemma rstripN_getLast (u : List Nat) (c : Nat)
    (h : (rstripN u).getLast? = some c) : isSpaceN c = false := by
  rw [rstripN, List.getLast?_reverse] at h
  exact head_dropWhile_false isSpaceN u.reverse c h

lemma getLast?_map_isSpaceN (s : List Nat) (b : Bool) :
    (pyTitleAux b s).getLast?.map isSpaceN = s.getLast?.map isSpaceN := by
  have h := congrArg List.getLast? (map_isSpaceN_pyTitleAux s b)
  rwa [List.getLast?_map, List.getLast?_map] at h

lemma rstripN_pyTitleAux (u : List Nat) (b : Bool) :
    rstripN (pyTitleAux b u) = pyTitleAux b (rstripN u) := by
  obtain ⟨tr, hdecomp, hsp⟩ := rstripN_decomp u
  have step1 : pyTitleAux b u
      = pyTitleAux b (rstripN u) ++ pyTitleAux (flagEnd b (rstripN u)) tr := by
    conv =>
      lhs
      rw [hdecomp]
    exact pyTitleAux_append (rstripN u) tr b
  have step2 : pyTitleAux (flagEnd b (rstripN u)) tr = tr :=
    pyTitleAux_of_all_space tr _ hsp
  rw [step1, step2, rstripN_append_spaces _ tr hsp]
  apply rstripN_eq_self
  intro c hc
  have hlast := getLast?_map_isSpaceN (rstripN u) b
  rw [hc] at hlast
  cases hu : (rstripN u).getLast? with
  | none =>
    rw [hu] at hlast
    simp at hlast
  | some d =>
    rw [hu] at hlast
    simp only [Option.map_some'] at hlast
    have hd : isSpaceN d = false := rstripN_getLast u d hu
    rw [hd] at hlast
    exact (Option.some.inj hlast)

lemma pyStrip_pyTitle (v : List Nat) : pyStrip (pyTitle v) = pyTitle (pyStrip v) := by
  rw [pyStrip, pyTitle, lstripN_pyTitleAux, rstripN_pyTitleAux]
  rfl

lemma lstripN_eq_self (X : List Nat)
    (h : ∀ c, X.head? = some c → isSpaceN c = false) : lstripN X = X := by
  cases X with
  | nil => rfl
  | cons c cs =>
    rw [lstripN, List.dropWhile_cons, h c rfl]
    rw [if_neg (by simp)]

lemma head_lstripN_false (u : List Nat) (c : Nat)
    (h : (lstripN u).head? = some c) : isSpaceN c = false :=
  head_dropWhile_false isSpaceN u c h

lemma prefix_head_eq {α : Type} (x y : List α) (h : x <+: y) (hne : x ≠ []) :
    y.head? = x.head? := by
  obtain ⟨t, rfl⟩ := h
  cases x with
  | nil => exact absurd rfl hne
  | cons a as => simp

lemma rstripN_isPrefix (m : List Nat) : rstripN m <+: m := by
  have hs : m.reverse.dropWhile isSpaceN <:+ m.reverse :=
    List.dropWhile_suffix isSpaceN
  have := List.reverse_prefix.mpr hs
  rwa [List.reverse_reverse] at this

lemma rstripN_idem (X : List Nat) : rstripN (rstripN X) = rstripN X :=
  rstripN_eq_self _ (fun c hc => rstripN_getLast X c hc)

lemma pyStrip_idem (v : List Nat) : pyStrip (pyStrip v) = pyStrip v := by
  have h1 : lstripN (rstripN (lstripN v)) = rstripN (lstripN v) := by
    apply lstripN_eq_self
    intro d hd
    have hne : rstripN (lstripN v) ≠ [] := by
      intro hnil
      rw [hnil] at hd
      simp at hd
    have hh : (lstripN v).head? = some d := by
      rw [prefix_head_eq _ _ (rstripN_isPrefix (lstripN v)) hne, hd]
    exact head_lstripN_false v d hh
  show rstripN (lstripN (rstripN (lstripN v))) = pyStrip v
  rw [h1, rstripN_idem]
  rfl

lemma pyTitle_idem (v : List Nat) : pyTitle (pyTitle v) = pyTitle v :=
  pyTitleAux_idem v false

lemma normalizeState_idem_of (s : List Nat)
    (h : lookupTab state_map (normalizeState s) = none) :
    normalizeState (normalizeState s) = normalizeState s := by
  have hrep : replaceState (normalizeState s) = normalizeState s := by
    rw [replaceState, h]
  conv_lhs => rw [normalizeState, hrep]
  show pyTitle (pyStrip (pyTitle (pyStrip (replaceState s))))
    = pyTitle (pyStrip (replaceState s))
  rw [pyStrip_pyTitle, pyStrip_idem, pyTitle_idem]

/-- C1 as stated fails: the alias
`The Dadra And Nagar Haveli And Daman And Diu` is not sent to its
documented canonical value `Dadra and Nagar Haveli` (the trailing
`.str.title()` re-cases it), and that canonical value itself is not a fixed
point of the normalizer. -/
theorem C1_counterexample :
    ¬ (∀ p ∈ state_map, normalizeState p.1 = p.2 ∧ normalizeState p.2 = p.2) := by
  decide

/-- C1 amended: every alias key is sent to the title-cased form of its
documented canonical value; for every alias whose canonical value is not
`Dadra and Nagar Haveli` this is the documented canonical value itself and
that value is a fixed point of the normalizer, while
`Dadra and Nagar Haveli` is re-cased to `Dadra And Nagar Haveli`. -/
theorem C1_alias_normalization (p : List Nat × List Nat) (hp : p ∈ state_map) :
    normalizeState p.1 = pyTitle p.2
    ∧ (p.2 ≠ pyStr (r"Dadra and Nagar Haveli") →
        normalizeState p.1 = p.2 ∧ normalizeState p.2 = p.2)
    ∧ normalizeState (pyStr (r"Dadra and Nagar Haveli"))
        = pyStr (r"Dadra And Nagar Haveli") := by
  revert p
  decide

theorem C1_witness :
    ((pyStr (r"Westbengal"), pyStr (r"West Bengal")) ∈ state_map)
    ∧ (normalizeState (pyStr (r"Westbengal")) = pyTitle (pyStr (r"West Bengal"))
      ∧ (pyStr (r"West Bengal") ≠ pyStr (r"Dadra and Nagar Haveli") →
          normalizeState (pyStr (r"Westbengal")) = pyStr (r"West Bengal")
          ∧ normalizeState (pyStr (r"West Bengal")) = pyStr (r"West Bengal"))
      ∧ normalizeState (pyStr (r"Dadra and Nagar Haveli"))
          = pyStr (r"Dadra And Nagar Haveli")) :=
  ⟨by decide,
    C1_alias_normalization (pyStr (r"Westbengal"), pyStr (r"West Bengal")) (by decide)⟩

/-- C2 as stated fails: on a table whose state cell `orissa` title-cases
into the alias key `Orissa`, a second application of the cleaning block
further maps the cell to `Odisha`. -/
theorem C2_counterexample :
    normalizeTable (normalizeTable [exRowC2]) ≠ normalizeTable [exRowC2] := by
  decide

/-- C2 amended: the cleaning block is idempotent on every table in which no
normalized state cell lands on an alias key of `state_map`; the
missing-numeric fill is idempotent unconditionally. -/
theorem C2_normalize_idempotent (t : List Row)
    (h : ∀ r ∈ t, lookupTab state_map (normalizeState r.state) = none) :
    normalizeTable (normalizeTable t) = normalizeTable t := by
  simp only [normalizeTable, List.map_map]
  apply List.map_congr_left
  intro r hr
  have hs : normalizeState (normalizeState r.state) = normalizeState r.state :=
    normalizeState_idem_of _ (h r hr)
  have hn : (r.nums.map fillCell).map fillCell = r.nums.map fillCell := by
    rw [List.map_map]
    apply List.map_congr_left
    intro c _
    rfl
  show normalizeRow (normalizeRow r) = normalizeRow r
  simp only [normalizeRow, List.map_map]
  rw [Row.mk.injEq]
  refine ⟨rfl, hs, ?_⟩
  rw [← List.map_map]
  exact hn

theorem C2_witness :
    (∀ r ∈ [exRowC2b], lookupTab state_map (normalizeState r.state) = none)
    ∧ normalizeTable (normalizeTable [exRowC2b]) = normalizeTable [exRowC2b] :=
  ⟨by decide, C2_normalize_idempotent [exRowC2b] (by decide)⟩
